import Mathlib

/-!
Verification of the boot-environment applet engine (`src/app.rs`).

The development shallowly embeds the pure core of the applet:
the property decoder `BootEnvironmentObject.from_properties`, the
enumeration loader `load_boot_environments`, the reducer
`AppModel.update`, the activation command `activate_boot_environment`,
and the continuations that the reducer's asynchronous tasks run once
their result arrives.  Machine integers (`i64`) are modelled as `Int`
(no overflow occurs in the source), D-Bus values as a small inductive
of the shapes the decoder inspects, dictionaries as association lists,
and fallible code as `Except`.  The `unreachable!` panic in the source
is modelled as the `Except.error` branch of the reducer.
-/

namespace Beadm

/-- A D-Bus object path (`zvariant::OwnedObjectPath`), opaque to the engine. -/
abbrev ObjectPath := String

/-- The shapes of `zvariant::Value` that the decoder inspects: strings,
booleans and signed 64-bit integers, plus a catch-all wrong-typed shape
(`u32`) standing for every other variant. -/
inductive DBusValue where
  | str (s : String)
  | bool (b : Bool)
  | i64 (n : Int)
  | u32 (n : Nat)
  deriving DecidableEq

/-- The error type of the decoder and of remote calls.  `incorrectType`
models `zvariant::Error::IncorrectType`, which is what both a missing
key (`ok_or(Error::IncorrectType)`) and a failed `downcast_ref()`
produce; `methodFailure` stands for transport or method-call errors of
`zbus::Error` that remote calls can return. -/
inductive ZError where
  | incorrectType
  | methodFailure (msg : String)
  deriving DecidableEq

/-- `downcast_ref::<String>()`: succeeds exactly on string values. -/
def downcastString : DBusValue → Except ZError String
  | .str s => .ok s
  | _ => .error .incorrectType

/-- `downcast_ref::<bool>()`: succeeds exactly on boolean values. -/
def downcastBool : DBusValue → Except ZError Bool
  | .bool b => .ok b
  | _ => .error .incorrectType

/-- `downcast_ref::<i64>()`: succeeds exactly on signed 64-bit values. -/
def downcastInt : DBusValue → Except ZError Int
  | .i64 n => .ok n
  | _ => .error .incorrectType

/-- `get_prop` from `from_properties`: look the key up in the property
dictionary, failing with `IncorrectType` when it is absent, then
downcast the value. -/
def get_prop (props : List (String × DBusValue)) (key : String)
    (downcast : DBusValue → Except ZError α) : Except ZError α :=
  match props.lookup key with
  | none => .error .incorrectType
  | some v => downcast v

/-- A decoded boot environment record (`BootEnvironmentObject`). -/
structure BootEnvironmentObject where
  path : ObjectPath
  name : String
  description : Option String
  active : Bool
  next_boot : Bool
  boot_once : Bool
  created : Int
  deriving DecidableEq

/-- `BootEnvironmentObject::from_properties`: decode a property
dictionary into a record.  The `Description` property is read first
(empty string becomes `none`), then the remaining fields in the order
of the struct literal; each failed lookup or downcast aborts the whole
decode (the `?` operator). -/
def BootEnvironmentObject.from_properties (path : ObjectPath)
    (props : List (String × DBusValue)) : Except ZError BootEnvironmentObject :=
  match get_prop props "Description" downcastString with
  | .error e => .error e
  | .ok description_str =>
    let description := if description_str.isEmpty then none else some description_str
    match get_prop props "Name" downcastString with
    | .error e => .error e
    | .ok name =>
      match get_prop props "Active" downcastBool with
      | .error e => .error e
      | .ok active =>
        match get_prop props "NextBoot" downcastBool with
        | .error e => .error e
        | .ok next_boot =>
          match get_prop props "BootOnce" downcastBool with
          | .error e => .error e
          | .ok boot_once =>
            match get_prop props "Created" downcastInt with
            | .error e => .error e
            | .ok created =>
              .ok { path, name, description, active, next_boot, boot_once, created }

/-- Whether a value has string shape. -/
def isStringVal : DBusValue → Bool
  | .str _ => true
  | _ => false

/-- Whether a value has boolean shape. -/
def isBoolVal : DBusValue → Bool
  | .bool _ => true
  | _ => false

/-- Whether a value has signed 64-bit integer shape. -/
def isIntVal : DBusValue → Bool
  | .i64 _ => true
  | _ => false

/-- The key is present in the dictionary with a value of the given shape. -/
def hasTyped (props : List (String × DBusValue)) (key : String)
    (shape : DBusValue → Bool) : Bool :=
  match props.lookup key with
  | some v => shape v
  | none => false

/-- A property dictionary carries all six required fields with the
correct types. -/
def wellFormedProps (props : List (String × DBusValue)) : Bool :=
  hasTyped props "Description" isStringVal &&
  hasTyped props "Name" isStringVal &&
  hasTyped props "Active" isBoolVal &&
  hasTyped props "NextBoot" isBoolVal &&
  hasTyped props "BootOnce" isBoolVal &&
  hasTyped props "Created" isIntVal

theorem downcastString_error {v : DBusValue} {e : ZError}
    (h : downcastString v = .error e) : e = .incorrectType := by
  cases v <;> simp [downcastString] at h <;> exact h.symm

theorem downcastBool_error {v : DBusValue} {e : ZError}
    (h : downcastBool v = .error e) : e = .incorrectType := by
  cases v <;> simp [downcastBool] at h <;> exact h.symm

theorem downcastInt_error {v : DBusValue} {e : ZError}
    (h : downcastInt v = .error e) : e = .incorrectType := by
  cases v <;> simp [downcastInt] at h <;> exact h.symm

theorem get_prop_error {props : List (String × DBusValue)} {key : String}
    {downcast : DBusValue → Except ZError α} {e : ZError}
    (hdc : ∀ v e', downcast v = .error e' → e' = ZError.incorrectType)
    (h : get_prop props key downcast = .error e) : e = .incorrectType := by
  unfold get_prop at h
  cases hk : props.lookup key with
  | none => rw [hk] at h; exact (Except.error.inj h).symm
  | some v => rw [hk] at h; exact hdc v e h

theorem get_prop_string_isOk (props : List (String × DBusValue)) (key : String) :
    (get_prop props key downcastString).isOk = hasTyped props key isStringVal := by
  unfold get_prop hasTyped
  cases props.lookup key with
  | none => rfl
  | some v => cases v <;> rfl

theorem get_prop_bool_isOk (props : List (String × DBusValue)) (key : String) :
    (get_prop props key downcastBool).isOk = hasTyped props key isBoolVal := by
  unfold get_prop hasTyped
  cases props.lookup key with
  | none => rfl
  | some v => cases v <;> rfl

theorem get_prop_int_isOk (props : List (String × DBusValue)) (key : String) :
    (get_prop props key downcastInt).isOk = hasTyped props key isIntVal := by
  unfold get_prop hasTyped
  cases props.lookup key with
  | none => rfl
  | some v => cases v <;> rfl

theorem from_properties_isOk (path : ObjectPath)
    (props : List (String × DBusValue)) :
    (BootEnvironmentObject.from_properties path props).isOk = wellFormedProps props := by
  unfold BootEnvironmentObject.from_properties wellFormedProps
  rw [← get_prop_string_isOk props "Description", ← get_prop_string_isOk props "Name",
    ← get_prop_bool_isOk props "Active", ← get_prop_bool_isOk props "NextBoot",
    ← get_prop_bool_isOk props "BootOnce", ← get_prop_int_isOk props "Created"]
  cases get_prop props "Description" downcastString <;>
    cases get_prop props "Name" downcastString <;>
      cases get_prop props "Active" downcastBool <;>
        cases get_prop props "NextBoot" downcastBool <;>
          cases get_prop props "BootOnce" downcastBool <;>
            cases get_prop props "Created" downcastInt <;>
              simp [Except.isOk, Except.toBool]

/-- C8: a property dictionary with the six required fields correctly
typed decodes deterministically to the full record, with the empty
`Description` string mapped to `none` and a non-empty one to `some`;
a dictionary missing a required field or holding a wrong-typed value
fails to decode, producing no record at all. -/
theorem decode_total_iff_well_formed (path : ObjectPath)
    (props : List (String × DBusValue)) :
    ((BootEnvironmentObject.from_properties path props).isOk = true ↔
      wellFormedProps props = true) ∧
    (∀ (d nm : String) (a nb bo : Bool) (cr : Int),
      props.lookup "Description" = some (.str d) →
      props.lookup "Name" = some (.str nm) →
      props.lookup "Active" = some (.bool a) →
      props.lookup "NextBoot" = some (.bool nb) →
      props.lookup "BootOnce" = some (.bool bo) →
      props.lookup "Created" = some (.i64 cr) →
      BootEnvironmentObject.from_properties path props =
        .ok { path := path, name := nm,
              description := if d.isEmpty then none else some d,
              active := a, next_boot := nb, boot_once := bo, created := cr }) := by
  constructor
  · rw [from_properties_isOk]
  · intro d nm a nb bo cr hd hnm ha hnb hbo hcr
    simp [BootEnvironmentObject.from_properties, get_prop, hd, hnm, ha, hnb, hbo, hcr,
      downcastString, downcastBool, downcastInt]

/-- C8 witness: a concrete dictionary with `Description = ""` decodes to
the full record with `description = none`, and dropping the `Created`
key makes the decode fail. -/
theorem decode_total_iff_well_formed_witness :
    BootEnvironmentObject.from_properties "/ca/kamacite/BootEnvironments/a"
        [("Description", .str ""), ("Name", .str "default"), ("Active", .bool true),
         ("NextBoot", .bool true), ("BootOnce", .bool false), ("Created", .i64 100)] =
      .ok { path := "/ca/kamacite/BootEnvironments/a", name := "default",
            description := none, active := true, next_boot := true,
            boot_once := false, created := 100 } ∧
    (BootEnvironmentObject.from_properties "/ca/kamacite/BootEnvironments/a"
        [("Description", .str ""), ("Name", .str "default"), ("Active", .bool true),
         ("NextBoot", .bool true), ("BootOnce", .bool false)]).isOk = false := by
  constructor
  · have h := (decode_total_iff_well_formed "/ca/kamacite/BootEnvironments/a"
      [("Description", .str ""), ("Name", .str "default"), ("Active", .bool true),
       ("NextBoot", .bool true), ("BootOnce", .bool false), ("Created", .i64 100)]).2
      "" "default" true true false 100 rfl rfl rfl rfl rfl rfl
    simpa using h
  · decide

/-- C10: the decoder collapses its two advertised failure modes: every
decode failure carries the same error value `IncorrectType`, whether a
required field is absent or present with the wrong type, so a caller
cannot distinguish a missing field from a type mismatch. -/
theorem decode_error_collapse (path : ObjectPath)
    (props : List (String × DBusValue)) (e : ZError)
    (h : BootEnvironmentObject.from_properties path props = .error e) :
    e = ZError.incorrectType := by
  unfold BootEnvironmentObject.from_properties at h
  cases h1 : get_prop props "Description" downcastString with
  | error e1 =>
    rw [h1] at h
    exact (Except.error.inj h) ▸ get_prop_error (fun v e' => downcastString_error) h1
  | ok d =>
    rw [h1] at h
    cases h2 : get_prop props "Name" downcastString with
    | error e2 =>
      rw [h2] at h
      exact (Except.error.inj h) ▸ get_prop_error (fun v e' => downcastString_error) h2
    | ok nm =>
      rw [h2] at h
      cases h3 : get_prop props "Active" downcastBool with
      | error e3 =>
        rw [h3] at h
        exact (Except.error.inj h) ▸ get_prop_error (fun v e' => downcastBool_error) h3
      | ok a =>
        rw [h3] at h
        cases h4 : get_prop props "NextBoot" downcastBool with
        | error e4 =>
          rw [h4] at h
          exact (Except.error.inj h) ▸ get_prop_error (fun v e' => downcastBool_error) h4
        | ok nb =>
          rw [h4] at h
          cases h5 : get_prop props "BootOnce" downcastBool with
          | error e5 =>
            rw [h5] at h
            exact (Except.error.inj h) ▸ get_prop_error (fun v e' => downcastBool_error) h5
          | ok bo =>
            rw [h5] at h
            cases h6 : get_prop props "Created" downcastInt with
            | error e6 =>
              rw [h6] at h
              exact (Except.error.inj h) ▸ get_prop_error (fun v e' => downcastInt_error) h6
            | ok cr =>
              rw [h6] at h
              exact absurd h (by simp)

/-- C10 witness: a dictionary missing every field and one whose
`Description` holds a boolean produce the very same error value, and
the collapse theorem applies to the missing-field failure. -/
theorem decode_error_collapse_witness :
    BootEnvironmentObject.from_properties "/ca/kamacite/BootEnvironments/a" [] =
      .error ZError.incorrectType ∧
    BootEnvironmentObject.from_properties "/ca/kamacite/BootEnvironments/a"
        [("Description", .bool true)] = .error ZError.incorrectType ∧
    ZError.incorrectType = ZError.incorrectType :=
  ⟨rfl, rfl,
    decode_error_collapse "/ca/kamacite/BootEnvironments/a" [] ZError.incorrectType rfl⟩

/-- The interfaces exposed by one managed object: interface name to
property dictionary.  The `get_managed_objects` reply is modelled as an
ordered list of such objects. -/
abbrev InterfaceMap := List (String × List (String × DBusValue))

/-- The loop body of `load_boot_environments`: walk the managed
objects in enumeration order, decode every one that exposes the
`ca.kamacite.BootEnvironment` interface, and propagate the first
decode failure (the `?` operator aborts the whole loop). -/
def decodeManagedObjects :
    List (ObjectPath × InterfaceMap) → Except ZError (List BootEnvironmentObject)
  | [] => .ok []
  | (path, interfaces) :: rest =>
    match interfaces.lookup "ca.kamacite.BootEnvironment" with
    | some props =>
      match BootEnvironmentObject.from_properties path props with
      | .error e => .error e
      | .ok env =>
        match decodeManagedObjects rest with
        | .error e => .error e
        | .ok tail => .ok (env :: tail)
    | none => decodeManagedObjects rest

/-- The final sorting step of `load_boot_environments`:
`environments.sort_by(|a, b| a.created.cmp(&b.created))`, a stable
sort keyed on the creation time.  Any stable sort realizes the same
function; a stable insertion sort is used so that the definition
evaluates by kernel reduction. -/
def sortByCreated (environments : List BootEnvironmentObject) :
    List BootEnvironmentObject :=
  environments.insertionSort (fun a b => a.created ≤ b.created)

instance : IsTotal BootEnvironmentObject (fun a b => a.created ≤ b.created) :=
  ⟨fun a b => le_total a.created b.created⟩

instance : IsTrans BootEnvironmentObject (fun a b => a.created ≤ b.created) :=
  ⟨fun _ _ _ hab hbc => le_trans hab hbc⟩

/-- `load_boot_environments`: decode all objects exposing the target
interface, then sort ascending by creation time. -/
def load_boot_environments (managed : List (ObjectPath × InterfaceMap)) :
    Except ZError (List BootEnvironmentObject) :=
  match decodeManagedObjects managed with
  | .error e => .error e
  | .ok environments => .ok (sortByCreated environments)

/-- The per-object decode results, in enumeration order, of the objects
exposing the target interface. -/
def objectDecodeResults (managed : List (ObjectPath × InterfaceMap)) :
    List (Except ZError BootEnvironmentObject) :=
  managed.filterMap (fun obj =>
    (obj.2.lookup "ca.kamacite.BootEnvironment").map
      (fun props => BootEnvironmentObject.from_properties obj.1 props))

/-- The first decode failure among the enumerated objects, if any. -/
def firstDecodeError (managed : List (ObjectPath × InterfaceMap)) : Option ZError :=
  (objectDecodeResults managed).findSome? (fun r =>
    match r with
    | .error e => some e
    | .ok _ => none)

/-- All successfully decoded records, in enumeration order. -/
def decodedRecords (managed : List (ObjectPath × InterfaceMap)) :
    List BootEnvironmentObject :=
  (objectDecodeResults managed).filterMap Except.toOption

theorem objectDecodeResults_cons (path : ObjectPath) (interfaces : InterfaceMap)
    (rest : List (ObjectPath × InterfaceMap)) :
    objectDecodeResults ((path, interfaces) :: rest) =
      match interfaces.lookup "ca.kamacite.BootEnvironment" with
      | some props =>
          BootEnvironmentObject.from_properties path props :: objectDecodeResults rest
      | none => objectDecodeResults rest := by
  unfold objectDecodeResults
  cases hifs : interfaces.lookup "ca.kamacite.BootEnvironment" <;>
    simp [List.filterMap_cons, hifs]

theorem decodeManagedObjects_eq (managed : List (ObjectPath × InterfaceMap)) :
    decodeManagedObjects managed =
      match firstDecodeError managed with
      | some e => .error e
      | none => .ok (decodedRecords managed) := by
  induction managed with
  | nil => rfl
  | cons obj rest ih =>
    obtain ⟨path, interfaces⟩ := obj
    unfold decodeManagedObjects
    cases hifs : interfaces.lookup "ca.kamacite.BootEnvironment" with
    | none =>
      rw [ih]
      simp only [firstDecodeError, decodedRecords, objectDecodeResults_cons, hifs]
    | some props =>
      cases hdec : BootEnvironmentObject.from_properties path props with
      | error e =>
        simp only [firstDecodeError, decodedRecords, objectDecodeResults_cons, hifs,
          List.findSome?_cons, hdec]
      | ok env =>
        rw [ih]
        simp only [firstDecodeError, decodedRecords, objectDecodeResults_cons, hifs,
          List.findSome?_cons, hdec, List.filterMap_cons, Except.toOption]
        cases (objectDecodeResults rest).findSome? (fun r =>
          match r with
          | .error e => some e
          | .ok _ => none) <;> simp

/-- C2: enumeration loading is all-or-nothing: whenever some object
exposing the target interface fails to decode, `load_boot_environments`
returns the first decode failure and no records at all; when every such
object decodes, it returns all the decoded records (as a permutation,
since the result is then sorted). -/
theorem load_all_or_nothing (managed : List (ObjectPath × InterfaceMap)) :
    (∀ e, firstDecodeError managed = some e →
      load_boot_environments managed = .error e) ∧
    (firstDecodeError managed = none →
      ∃ l, load_boot_environments managed = .ok l ∧
        l.Perm (decodedRecords managed)) := by
  constructor
  · intro e he
    unfold load_boot_environments
    rw [decodeManagedObjects_eq, he]
  · intro hnone
    refine ⟨sortByCreated (decodedRecords managed), ?_, ?_⟩
    · unfold load_boot_environments
      rw [decodeManagedObjects_eq, hnone]
    · exact List.perm_insertionSort _ (decodedRecords managed)

/-- Property dictionary of a well-formed demo record with the given
name and creation time. -/
def demoProps (nm : String) (created : Int) : List (String × DBusValue) :=
  [("Description", .str ""), ("Name", .str nm), ("Active", .bool false),
   ("NextBoot", .bool false), ("BootOnce", .bool false), ("Created", .i64 created)]

/-- Demo record with the given path, name and creation time and all
flags clear. -/
def demoEnv (path : ObjectPath) (nm : String) (created : Int) : BootEnvironmentObject :=
  { path := path, name := nm, description := none, active := false,
    next_boot := false, boot_once := false, created := created }

/-- Demo enumeration reply holding creation times 100, 300, 200. -/
def demoManaged : List (ObjectPath × InterfaceMap) :=
  [("/ca/kamacite/BootEnvironments/a",
    [("ca.kamacite.BootEnvironment", demoProps "a" 100)]),
   ("/ca/kamacite/BootEnvironments/b",
    [("ca.kamacite.BootEnvironment", demoProps "b" 300)]),
   ("/ca/kamacite/BootEnvironments/c",
    [("ca.kamacite.BootEnvironment", demoProps "c" 200)])]

/-- Demo enumeration reply whose second object fails to decode. -/
def demoManagedBad : List (ObjectPath × InterfaceMap) :=
  [("/ca/kamacite/BootEnvironments/a",
    [("ca.kamacite.BootEnvironment", demoProps "a" 100)]),
   ("/ca/kamacite/BootEnvironments/b",
    [("ca.kamacite.BootEnvironment", [("Description", .str "broken")])])]

/-- C2 witness: on a reply whose second object lacks the required
fields, the whole load fails with that object's decode error. -/
theorem load_all_or_nothing_witness :
    firstDecodeError demoManagedBad = some ZError.incorrectType ∧
    load_boot_environments demoManagedBad = .error ZError.incorrectType := by
  constructor
  · decide
  · exact (load_all_or_nothing demoManagedBad).1 ZError.incorrectType (by decide)

/-- C5: every successful load is sorted ascending by `created`, and
re-sorting the result leaves it unchanged, so reloading unchanged
remote state (the same enumeration reply) reproduces the identical
ordered list. -/
theorem load_sorted_by_created (managed : List (ObjectPath × InterfaceMap))
    (l : List BootEnvironmentObject)
    (h : load_boot_environments managed = .ok l) :
    List.Pairwise (fun a b : BootEnvironmentObject => a.created ≤ b.created) l ∧
    sortByCreated l = l := by
  unfold load_boot_environments at h
  cases hdec : decodeManagedObjects managed with
  | error e => rw [hdec] at h; cases h
  | ok environments =>
    rw [hdec] at h
    have hl : l = sortByCreated environments := (Except.ok.inj h).symm
    subst hl
    have hsorted :
        List.Sorted (fun a b : BootEnvironmentObject => a.created ≤ b.created)
          (sortByCreated environments) :=
      List.sorted_insertionSort _ environments
    exact ⟨hsorted, hsorted.insertionSort_eq⟩

/-- C5 witness: loading the demo reply with creation times 100, 300,
200 yields the records in order 100, 200, 300, already sorted and fixed
under re-sorting. -/
theorem load_sorted_by_created_witness :
    load_boot_environments demoManaged =
      .ok [demoEnv "/ca/kamacite/BootEnvironments/a" "a" 100,
           demoEnv "/ca/kamacite/BootEnvironments/c" "c" 200,
           demoEnv "/ca/kamacite/BootEnvironments/b" "b" 300] ∧
    (List.Pairwise (fun a b : BootEnvironmentObject => a.created ≤ b.created)
      [demoEnv "/ca/kamacite/BootEnvironments/a" "a" 100,
       demoEnv "/ca/kamacite/BootEnvironments/c" "c" 200,
       demoEnv "/ca/kamacite/BootEnvironments/b" "b" 300] ∧
     sortByCreated
      [demoEnv "/ca/kamacite/BootEnvironments/a" "a" 100,
       demoEnv "/ca/kamacite/BootEnvironments/c" "c" 200,
       demoEnv "/ca/kamacite/BootEnvironments/b" "b" 300] =
      [demoEnv "/ca/kamacite/BootEnvironments/a" "a" 100,
       demoEnv "/ca/kamacite/BootEnvironments/c" "c" 200,
       demoEnv "/ca/kamacite/BootEnvironments/b" "b" 300]) :=
  ⟨rfl, load_sorted_by_created demoManaged _ rfl⟩

/-- A live system-bus connection (`zbus::Connection`), opaque to the
engine; only its identity matters to the model. -/
structure DBusConnection where
  id : Nat
  deriving DecidableEq

/-- The `Activate` call placed on the wire by `activate_boot_environment`:
the object it is invoked on and the `temporary` flag it carries. -/
structure ActivateCall where
  path : ObjectPath
  temporary : Bool
  deriving DecidableEq

/-- `activate_boot_environment`: build a proxy for the given path and
invoke `Activate` on it.  The source passes the literal `true`
(`proxy.activate(true)` — "Activate it temporarily"); it accepts no
flag from its caller. -/
def activate_boot_environment (_conn : DBusConnection) (path : ObjectPath) :
    ActivateCall :=
  { path := path, temporary := true }

/-- Messages emitted by the application and its widgets. -/
inductive Message where
  | togglePopup
  | popupClosed (id : Nat)
  | bootSettingsClicked
  | activateEnvironment (path : ObjectPath)
  | bootEnvironmentsLoaded (environments : List BootEnvironmentObject)
  | connected (conn : DBusConnection)
  | added (env : BootEnvironmentObject)
  | removed (path : ObjectPath)
  | bootEnvironmentsModified
  deriving DecidableEq

/-- The mutable application state that `update` owns: the popup id, the
cached boot-environment collection and the held connection.
`nextPopupId` embeds the fresh-id source behind `Id::unique()`. -/
structure AppModel where
  popup : Option Nat
  environments : List BootEnvironmentObject
  conn : Option DBusConnection
  nextPopupId : Nat
  deriving DecidableEq

/-- The asynchronous tasks `update` can return (`Task::perform` calls
and popup commands), by the data they capture. -/
inductive AppTask where
  | none
  | performLoad (conn : DBusConnection)
  | performActivate (conn : DBusConnection) (path : ObjectPath)
  | destroyPopup (id : Nat)
  | getPopup (id : Nat)
  deriving DecidableEq

/-- The action a completed task hands back to the runtime: either
nothing or a message fed back into `update`. -/
inductive Action where
  | none
  | app (message : Message)
  deriving DecidableEq

/-- The continuation of the load tasks spawned for `Connected` and
`BootEnvironmentsModified`: a successful load becomes
`BootEnvironmentsLoaded`, a failed one is logged and dropped. -/
def loadContinuation : Except ZError (List BootEnvironmentObject) → Action
  | .ok environments => .app (.bootEnvironmentsLoaded environments)
  | .error _ => .none

/-- The continuation of the activation task spawned for
`ActivateEnvironment` (`src/app.rs:408-419`): both the `Ok` and the
`Err` arm only log, and the closure then yields `Action::None`. -/
def activateContinuation : Except ZError Unit → Action
  | _ => .none

/-- `AppModel::update`, the reducer.  Each arm mirrors the `match` in
the source; the `unreachable!` panic in the no-connection
`ActivateEnvironment` arm is modelled as the `Except.error` case, every
other arm returns the new state and the task it spawns. -/
def AppModel.update (model : AppModel) (message : Message) :
    Except String (AppModel × AppTask) :=
  match message with
  | .bootSettingsClicked => .ok (model, .none)
  | .connected conn =>
      .ok ({ model with conn := some conn }, .performLoad conn)
  | .bootEnvironmentsLoaded environments =>
      .ok ({ model with environments := environments }, .none)
  | .added env =>
      .ok ({ model with environments := model.environments ++ [env] }, .none)
  | .removed path =>
      .ok ({ model with
              environments := model.environments.filter (fun env => env.path != path) },
        .none)
  | .bootEnvironmentsModified =>
      match model.conn with
      | some conn => .ok (model, .performLoad conn)
      | none => .ok (model, .none)
  | .activateEnvironment path =>
      match model.conn with
      | some conn => .ok (model, .performActivate conn path)
      | none => .error "no D-Bus connection available"
  | .togglePopup =>
      match model.popup with
      | some p => .ok ({ model with popup := none }, .destroyPopup p)
      | none =>
          .ok ({ model with
                  popup := some model.nextPopupId
                  nextPopupId := model.nextPopupId + 1 },
            .getPopup model.nextPopupId)
  | .popupClosed i =>
      if model.popup = some i then .ok ({ model with popup := none }, .none)
      else .ok (model, .none)

/-- `selected_idx` from `view_window`: the index fed to the dropdown,
`position(boot_once).or(position(next_boot))`. -/
def selected_idx (environments : List BootEnvironmentObject) : Option Nat :=
  (environments.findIdx? (fun e => e.boot_once)).or
    (environments.findIdx? (fun e => e.next_boot))

/-- Index of the first record satisfying the predicate, if any. -/
def firstIndexSatisfying (p : BootEnvironmentObject → Bool) :
    List BootEnvironmentObject → Option Nat
  | [] => none
  | env :: rest =>
    if p env then some 0 else (firstIndexSatisfying p rest).map (· + 1)

/-- Modelled from the spec: `reboot_target_index()` — the index of the
first `boot_once = true` record; else the index of the first
`next_boot = true` record; else none. -/
def reboot_target_index (environments : List BootEnvironmentObject) : Option Nat :=
  match firstIndexSatisfying (fun e => e.boot_once) environments with
  | some i => some i
  | none => firstIndexSatisfying (fun e => e.next_boot) environments

theorem findIdx?_go (p : BootEnvironmentObject → Bool) :
    ∀ (l : List BootEnvironmentObject) (i : Nat),
      List.findIdx? p l i = (firstIndexSatisfying p l).map (· + i) := by
  intro l
  induction l with
  | nil => intro i; simp [firstIndexSatisfying]
  | cons env rest ih =>
    intro i
    rw [List.findIdx?_cons]
    unfold firstIndexSatisfying
    by_cases hp : p env
    · simp [hp]
    · simp only [hp, if_neg, Bool.false_eq_true, if_false, ih (i + 1), Option.map_map]
      cases firstIndexSatisfying p rest <;> simp [Function.comp]
      omega

theorem findIdx?_eq_firstIndexSatisfying (p : BootEnvironmentObject → Bool)
    (l : List BootEnvironmentObject) :
    List.findIdx? p l = firstIndexSatisfying p l := by
  rw [findIdx?_go p l 0]
  cases firstIndexSatisfying p l <;> simp

/-- Demo record with the given reboot flags and all other fields fixed. -/
def demoFlagged (nm : String) (nb bo : Bool) : BootEnvironmentObject :=
  { path := nm, name := nm, description := none, active := false,
    next_boot := nb, boot_once := bo, created := 0 }

/-- A model holding no connection, as right after `init`. -/
def disconnectedModel : AppModel :=
  { popup := none, environments := [], conn := none, nextPopupId := 0 }

/-- A model holding a live connection. -/
def connectedModel : AppModel :=
  { popup := none, environments := [demoEnv "/ca/kamacite/BootEnvironments/a" "a" 100],
    conn := some ⟨7⟩, nextPopupId := 0 }

/-- C7: the dropdown selection index is the index of the first record
with `boot_once = true`, else the index of the first record with
`next_boot = true`, else none; on the two-element collection with
`next_boot` on the first entry and `boot_once` on the second it selects
index 1, and with neither flag set anywhere it selects none. -/
theorem selected_idx_spec :
    (∀ environments, selected_idx environments = reboot_target_index environments) ∧
    selected_idx [demoFlagged "a" true false, demoFlagged "b" false true] = some 1 ∧
    selected_idx [demoFlagged "a" false false, demoFlagged "b" false false] = none := by
  refine ⟨?_, by decide, by decide⟩
  intro environments
  unfold selected_idx reboot_target_index
  rw [findIdx?_eq_firstIndexSatisfying, findIdx?_eq_firstIndexSatisfying]
  cases firstIndexSatisfying (fun e => e.boot_once) environments <;> simp [Option.or]

/-- C6: an `Added(record)` event appends the new record at the tail of
the collection with no re-sort, leaving every existing entry, their
order, and the rest of the model unchanged — for every record, hence
also when its `created` value is smaller than existing entries. -/
theorem added_appends_at_tail (model : AppModel) (env : BootEnvironmentObject) :
    ∃ model', model.update (.added env) = .ok (model', .none) ∧
      model'.environments = model.environments ++ [env] ∧
      model'.popup = model.popup ∧ model'.conn = model.conn :=
  ⟨_, rfl, rfl, rfl, rfl⟩

/-- C9: a `Removed(identity)` event keeps exactly the entries whose
identity differs, in their original order — so an identity matching no
entry leaves the collection exactly unchanged, and a present identity
removes only the matching entry. -/
theorem removed_keeps_non_matching (model : AppModel) (path : ObjectPath) :
    ∃ model', model.update (.removed path) = .ok (model', .none) ∧
      model'.environments =
        model.environments.filter (fun env => env.path != path) ∧
      ((∀ env ∈ model.environments, env.path ≠ path) →
        model'.environments = model.environments) ∧
      model'.popup = model.popup ∧ model'.conn = model.conn := by
  refine ⟨_, rfl, rfl, ?_, rfl, rfl⟩
  intro h
  apply List.filter_eq_self.mpr
  intro env henv
  simpa [bne_iff_ne] using h env henv

/-- C9 witness: removing an absent identity from the demo model leaves
its single-entry collection untouched. -/
theorem removed_keeps_non_matching_witness :
    ∃ model', connectedModel.update (.removed "/ca/kamacite/BootEnvironments/zz") =
        .ok (model', .none) ∧
      model'.environments =
        connectedModel.environments.filter
          (fun env => env.path != "/ca/kamacite/BootEnvironments/zz") ∧
      ((∀ env ∈ connectedModel.environments,
          env.path ≠ "/ca/kamacite/BootEnvironments/zz") →
        model'.environments = connectedModel.environments) ∧
      model'.popup = connectedModel.popup ∧ model'.conn = connectedModel.conn :=
  removed_keeps_non_matching connectedModel "/ca/kamacite/BootEnvironments/zz"

/-- C3 counterexample: an `ActivateEnvironment` message processed while
no connection is held reaches the `unreachable!` panic — the reducer
does crash on this input, refuting that no input ever causes a panic. -/
theorem update_panics_without_connection :
    disconnectedModel.update
        (.activateEnvironment "/ca/kamacite/BootEnvironments/a") =
      .error "no D-Bus connection available" := rfl

/-- C3 amended: processing a message never panics except in exactly one
case: an activation request arriving while no connection is held, where
the reducer invokes `unreachable!`.  Every other message in every state
is handled without escalation; failures of spawned tasks only ever
yield stale or empty data. -/
theorem update_no_panic_except_unconnected_activation :
    ∀ (model : AppModel) (message : Message),
      (model.update message).isOk = false →
      ∃ path, message = .activateEnvironment path ∧ model.conn = none := by
  intro model message h
  unfold AppModel.update at h
  cases message with
  | togglePopup =>
    cases hp : model.popup <;> rw [hp] at h <;>
      simp [Except.isOk, Except.toBool] at h
  | popupClosed i =>
    by_cases hp : model.popup = some i <;>
      simp [hp, Except.isOk, Except.toBool] at h
  | bootSettingsClicked => simp [Except.isOk, Except.toBool] at h
  | activateEnvironment path =>
    cases hconn : model.conn with
    | some conn => rw [hconn] at h; simp [Except.isOk, Except.toBool] at h
    | none => exact ⟨path, rfl, hconn ▸ rfl⟩
  | bootEnvironmentsLoaded environments => simp [Except.isOk, Except.toBool] at h
  | connected conn => simp [Except.isOk, Except.toBool] at h
  | added env => simp [Except.isOk, Except.toBool] at h
  | removed path => simp [Except.isOk, Except.toBool] at h
  | bootEnvironmentsModified =>
    cases hconn : model.conn <;> rw [hconn] at h <;>
      simp [Except.isOk, Except.toBool] at h

/-- C3 witness: the amended theorem applied to the one failing input
recovers that the message was an activation request in a
connection-less state. -/
theorem update_no_panic_witness :
    ∃ path, Message.activateEnvironment "/ca/kamacite/BootEnvironments/a" =
        .activateEnvironment path ∧ disconnectedModel.conn = none :=
  update_no_panic_except_unconnected_activation disconnectedModel
    (.activateEnvironment "/ca/kamacite/BootEnvironments/a") (by decide)

/-- C1 counterexample: the continuation run when the activation command
completes yields `Action.none` both on success and on failure; it is
not a message, so no reload is triggered after the command — refuting
that the coordinator triggers a full reload regardless of outcome. -/
theorem activation_reload_counterexample :
    activateContinuation (.ok ()) = Action.none ∧
    activateContinuation (.error (ZError.methodFailure "access denied")) =
      Action.none ∧
    Action.none ≠ Action.app .bootEnvironmentsModified ∧
    connectedModel.update
        (.activateEnvironment "/ca/kamacite/BootEnvironments/a") =
      .ok (connectedModel, .performActivate ⟨7⟩ "/ca/kamacite/BootEnvironments/a") :=
  ⟨rfl, rfl, by decide, rfl⟩

/-- C1 amended: after issuing the activation command the coordinator
takes no further action at all: the continuation returns `Action.none`
on success and failure alike, and the reducer leaves the model — in
particular the local flags — untouched.  Convergence to server truth
relies instead on property-change notifications: a
`BootEnvironmentsModified` message does trigger a full reload whenever
a connection is held. -/
theorem activation_produces_no_follow_up :
    (∀ r : Except ZError Unit, activateContinuation r = Action.none) ∧
    (∀ (model : AppModel) (conn : DBusConnection) (path : ObjectPath),
      model.conn = some conn →
      model.update (.activateEnvironment path) =
        .ok (model, .performActivate conn path)) ∧
    (∀ (model : AppModel) (conn : DBusConnection),
      model.conn = some conn →
      model.update .bootEnvironmentsModified = .ok (model, .performLoad conn)) := by
  refine ⟨fun r => rfl, ?_, ?_⟩
  · intro model conn path hconn
    simp [AppModel.update, hconn]
  · intro model conn hconn
    simp [AppModel.update, hconn]

/-- C1 witness: on the demo connected model, activating spawns only the
activation task, a failed command's continuation is `Action.none`, and
the modified notification spawns the reload. -/
theorem activation_produces_no_follow_up_witness :
    activateContinuation (.error (ZError.methodFailure "access denied")) =
      Action.none ∧
    connectedModel.update
        (.activateEnvironment "/ca/kamacite/BootEnvironments/a") =
      .ok (connectedModel,
        .performActivate ⟨7⟩ "/ca/kamacite/BootEnvironments/a") ∧
    connectedModel.update .bootEnvironmentsModified =
      .ok (connectedModel, .performLoad ⟨7⟩) :=
  ⟨activation_produces_no_follow_up.1 _,
   activation_produces_no_follow_up.2.1 connectedModel ⟨7⟩
     "/ca/kamacite/BootEnvironments/a" rfl,
   activation_produces_no_follow_up.2.2 connectedModel ⟨7⟩ rfl⟩

/-- C4 counterexample: the activation routine offers the caller no
temporary/permanent choice: the command placed on the wire carries
`temporary = true` and can never carry `false`, so a caller-requested
permanent activation is impossible — refuting that the wire flag equals
a caller-supplied flag for both values. -/
theorem activate_flag_counterexample :
    (activate_boot_environment ⟨7⟩ "/ca/kamacite/BootEnvironments/a").temporary =
      true ∧
    (activate_boot_environment ⟨7⟩ "/ca/kamacite/BootEnvironments/a").temporary ≠
      false :=
  ⟨rfl, by decide⟩

/-- C4 amended: `activate_boot_environment` takes only the connection
and the identity: it issues the remote `Activate` command against the
object identified by the path with the flag hard-coded to `true`
(temporary activation), for every call. -/
theorem activate_always_temporary :
    ∀ (conn : DBusConnection) (path : ObjectPath),
      activate_boot_environment conn path = { path := path, temporary := true } :=
  fun _ _ => rfl

end Beadm
